import Mathlib

/-!
Shallow embedding of `src/main.py` of the ghas-to-csv repository.

The script resolves configuration from environment variables, fetches
security alerts per feature (secret scanning, code scanning, Dependabot)
for one scope (repository, organization, enterprise), and writes each
feature's alerts to a CSV file annotated with repository admin logins.

The four imported fetcher modules (`code_scanning`, `dependabot`,
`enterprise`, `secret_scanning`) are not part of the source tree; each
fetcher call is modelled as an abstract outcome supplied by an
environment `Env`: either a list of alert records or a raised exception
carrying its message string.  Python strings are Lean `String`s; the
few string operations the script uses (`in`, `lower`, `startswith`,
`split(",")`, `", ".join`) are embedded as structural functions over
the character list so that the kernel can evaluate them.
-/

namespace GhasToCsv

/-- An alert record: ordered field-name/value pairs (a Python dict,
whose `keys()` / `values()` follow insertion order). -/
abbrev Record := List (String × String)

/-- The content of one CSV file: a list of rows, each a list of cells. -/
abbrev CsvFile := List (List String)

/-- The files written during a run: filename to content, latest write wins. -/
abbrev Files := List (String × CsvFile)

/-- The admin map `admin_details`: repository full name to admin logins. -/
abbrev AdminMap := List (String × List String)

/-- Write (create or truncate-and-replace) a file. -/
def setFile : Files → String → CsvFile → Files
  | [], name, content => [(name, content)]
  | (n, c) :: rest, name, content =>
    if n = name then (n, content) :: rest else (n, c) :: setFile rest name content

/-- Read a file back, `none` when it was never written. -/
def getFile : Files → String → Option CsvFile
  | [], _ => none
  | (n, c) :: rest, name => if n = name then some c else getFile rest name

/-- `prefChars p s`: the char list `p` is a prefix of `s`. -/
def prefChars : List Char → List Char → Bool
  | [], _ => true
  | _ :: _, [] => false
  | a :: p, b :: s => a = b && prefChars p s

/-- `inChars p s`: the char list `p` occurs contiguously in `s`. -/
def inChars (p : List Char) : List Char → Bool
  | [] => p.isEmpty
  | b :: s => prefChars p (b :: s) || inChars p s

/-- Python `needle in haystack` on strings (substring containment). -/
def strIn (needle haystack : String) : Bool :=
  inChars needle.toList haystack.toList

/-- Python `s.startswith(p)`. -/
def strStarts (s p : String) : Bool :=
  prefChars p.toList s.toList

/-- Python `s.lower()` (the script only ever lowers ASCII exception text). -/
def strLower (s : String) : String :=
  (s.toList.map Char.toLower).asString

/-- Python `s.split(",")`, accumulating the current piece in reverse. -/
def splitCommaAux : List Char → List Char → List String
  | [], acc => [acc.reverse.asString]
  | c :: rest, acc =>
    if c = ',' then acc.reverse.asString :: splitCommaAux rest []
    else splitCommaAux rest (c :: acc)

/-- Python `s.split(",")`. -/
def pySplitComma (s : String) : List String :=
  splitCommaAux s.toList []

/-- Python `", ".join(l)`. -/
def joinComma : List String → String
  | [] => ""
  | [a] => a
  | a :: b :: rest => a ++ ", " ++ joinComma (b :: rest)

/-- `main.py` line 26: phrases indicating secret scanning is not enabled. -/
def secret_scanning_disabled_strings : List String :=
  ["secret scanning is not enabled", "secret scanning is disabled"]

/-- `main.py` line 27: phrases indicating Dependabot alerts are not enabled. -/
def dependabot_disabled_strings : List String :=
  ["dependabot alerts are not enabled", "dependabot alerts are disabled"]

/-- `main.py` line 30: the available features. -/
def FEATURES : List String := ["secretscanning", "codescanning", "dependabot"]

/-- `any(x in str(e).lower() for x in strs)` (lines 95, 119, 136, 147, 164, 175). -/
def matches_disabled (strs : List String) (msg : String) : Bool :=
  strs.any (fun x => strIn x (strLower msg))

/-- The validation loop of lines 43-46.  A Python `for f in features`
iterating the very list that `features.remove(f)` mutates keeps a plain
index: at each step it checks `i < len(l)`, reads `l[i]`, runs the body
(possibly shrinking the list with `remove`, which drops the first
occurrence, as `List.erase` does) and then increments `i`.  The fuel
argument only bounds the iteration count; `features_filter_fuel_congr`
below shows `l.length - i` fuel always suffices. -/
def features_filter_fuel : Nat → List String → Nat → List String
  | 0, l, _ => l
  | fuel + 1, l, i =>
    if h : i < l.length then
      if l.get ⟨i, h⟩ ∈ FEATURES then features_filter_fuel fuel l (i + 1)
      else features_filter_fuel fuel (l.erase (l.get ⟨i, h⟩)) (i + 1)
    else l

/-- Lines 38-46: resolve the requested feature list.  `none` models an
unset `FEATURES` environment variable. -/
def resolve_features : Option String → List String
  | none => FEATURES
  | some s =>
    if s = "all" then FEATURES
    else
      let l := pySplitComma s
      features_filter_fuel l.length l 0

/-- The fuel of `features_filter_fuel` is irrelevant once it covers the
remaining iteration count `l.length - i`, so `resolve_features` runs the
line 43-46 loop to completion exactly as Python does. -/
theorem features_filter_fuel_congr :
    ∀ f₁ f₂ (l : List String) (i : Nat), l.length - i ≤ f₁ → l.length - i ≤ f₂ →
      features_filter_fuel f₁ l i = features_filter_fuel f₂ l i := by
  intro f₁
  induction f₁ with
  | zero =>
    intro f₂ l i h₁ h₂
    have hi : ¬ i < l.length := by omega
    cases f₂ with
    | zero => rfl
    | succ g => simp [features_filter_fuel, hi]
  | succ f ih =>
    intro f₂ l i h₁ h₂
    cases f₂ with
    | zero =>
      have hi : ¬ i < l.length := by omega
      simp [features_filter_fuel, hi]
    | succ g =>
      by_cases hi : i < l.length
      · have hmem : l.get ⟨i, hi⟩ ∈ l := l.get_mem _ _
        have herase : (l.erase (l.get ⟨i, hi⟩)).length = l.length - 1 :=
          List.length_erase_of_mem hmem
        by_cases hf : l.get ⟨i, hi⟩ ∈ FEATURES
        · simp only [features_filter_fuel, dif_pos hi, if_pos hf]
          exact ih g l (i + 1) (by omega) (by omega)
        · simp only [features_filter_fuel, dif_pos hi, if_neg hf]
          exact ih g (l.erase (l.get ⟨i, hi⟩)) (i + 1) (by omega) (by omega)
      · simp [features_filter_fuel, hi]

/-- Lines 62-71, `write_csv_with_admins(filename, data, admin_details)`.
`open(filename, mode='w')` truncates the file before anything else; on
empty `data` the subscript `data[0].keys()` then raises
`IndexError('list index out of range')`, leaving the truncated empty
file behind.  `scope_name` is the module-global read on line 69.
Returns the updated filesystem and the raised exception, if any.
The loop body of lines 68-71 is split out as `csvRow`: `repo_name =
row.get('repository', scope_name)`, `admins = admin_details.get(repo_name,
[])`, then the row `list(row.values()) + [', '.join(admins)]`. -/
def csvRow (scope_name : String) (admin_details : AdminMap) (row : Record) : List String :=
  let repo_name := (row.lookup "repository").getD scope_name
  let admins := (admin_details.lookup repo_name).getD []
  row.map Prod.snd ++ [joinComma admins]

def write_csv_with_admins (scope_name filename : String) (data : List Record)
    (admin_details : AdminMap) (files : Files) : Files × Option String :=
  let files := setFile files filename []
  match data with
  | [] => (files, some "list index out of range")
  | first :: _ =>
    let headers := first.map Prod.fst ++ ["Admins"]
    (setFile files filename (headers :: data.map (csvRow scope_name admin_details)), none)

/-- The external calls the orchestrator can make, recorded in order as a
trace.  `repoAdmins` is `get_repo_admins` (lines 80, 85); the others are
the fetcher-module calls of lines 92-172 plus the enterprise version
probe (line 102) and repo report (line 107). -/
inductive FetchCall where
  | repoAdmins (repo : String)
  | enterpriseSS
  | enterpriseVersionProbe
  | repoReport
  | enterpriseServerCS
  | enterpriseCloudCS
  | enterpriseDependabot
  | orgCS
  | orgDependabot
  | orgSS
  | repoCS
  | repoDependabot
  | repoSS
deriving DecidableEq

/-- The outcome of one fetcher call: a record list, or a raised
exception carrying `str(e)`. -/
abbrev FetchResult := Except String (List Record)

/-- The mocked behaviour of the external world: what each fetcher
returns when called.  The version probe and the repo report are modelled
as always succeeding, since no claim exercises their failure. -/
structure Env where
  enterpriseSS : FetchResult
  enterpriseVersion : String
  enterpriseServerCS : FetchResult
  enterpriseCloudCS : FetchResult
  enterpriseDependabot : FetchResult
  orgCS : FetchResult
  orgDependabot : FetchResult
  orgSS : FetchResult
  repoCS : FetchResult
  repoDependabot : FetchResult
  repoSS : FetchResult
  repoAdmins : String → List String

/-- How the run ends: normal completion, an uncaught exception, or the
`exit("Invalid report scope")` of line 181 (a nonzero-status abort). -/
inductive Outcome where
  | ok
  | raised (msg : String)
  | exited (msg : String)
deriving DecidableEq

/-- The mutable state threaded through the orchestrator: files written
so far and the trace of external calls made so far. -/
structure RunState where
  files : Files
  trace : List FetchCall
deriving DecidableEq

/-- A step's result: the state reached, plus the uncaught exception that
aborted it, if any. -/
abbrev StepResult := RunState × Option String

/-- Sequencing: a later statement runs only when no exception is
propagating; files written earlier persist either way. -/
def andThenStep (r : StepResult) (k : RunState → StepResult) : StepResult :=
  match r with
  | (st, none) => k st
  | (st, some e) => (st, some e)

/-- One `try`-guarded feature block (lines 90-99, 114-123, 131-140,
142-151, 159-168, 170-179): call the fetcher, write the CSV, and catch
any exception whose lowercased text matches a phrase in `strs`
(the write is inside the `try`, so its exceptions are classified too). -/
def run_try_feature (strs : List String) (fetch : FetchResult) (call : FetchCall)
    (filename scope_name : String) (admin_details : AdminMap) (st : RunState) : StepResult :=
  let st := { st with trace := st.trace ++ [call] }
  match fetch with
  | .ok data =>
    match write_csv_with_admins scope_name filename data admin_details st.files with
    | (files, none) => ({ st with files := files }, none)
    | (files, some e) =>
      if matches_disabled strs e then ({ st with files := files }, none)
      else ({ st with files := files }, some e)
  | .error e =>
    if matches_disabled strs e then (st, none) else (st, some e)

/-- An unguarded feature block (the code-scanning paths, lines 106-112,
127-129, 155-157): any exception propagates. -/
def run_plain_feature (fetch : FetchResult) (call : FetchCall)
    (filename scope_name : String) (admin_details : AdminMap) (st : RunState) : StepResult :=
  let st := { st with trace := st.trace ++ [call] }
  match fetch with
  | .ok data =>
    match write_csv_with_admins scope_name filename data admin_details st.files with
    | (files, e) => ({ st with files := files }, e)
  | .error e => (st, some e)

/-- The enterprise code-scanning branch (lines 101-112): probe the
server version; for `3.5*` / `3.6*` fetch the repo report and loop the
per-repository endpoint, otherwise use the enterprise-wide endpoint. -/
def run_enterprise_cs (env : Env) (scope_name : String) (admin_details : AdminMap)
    (st : RunState) : StepResult :=
  let st := { st with trace := st.trace ++ [FetchCall.enterpriseVersionProbe] }
  let version := env.enterpriseVersion
  if strStarts version "3.5" || strStarts version "3.6" then
    let st := { st with trace := st.trace ++ [FetchCall.repoReport] }
    run_plain_feature env.enterpriseServerCS FetchCall.enterpriseServerCS
      "enterprise_code_scanning.csv" scope_name admin_details st
  else
    run_plain_feature env.enterpriseCloudCS FetchCall.enterpriseCloudCS
      "enterprise_code_scanning.csv" scope_name admin_details st

/-- The `if "<feature>" in features:` gate around each block. -/
def gate (name : String) (features : List String) (k : RunState → StepResult)
    (st : RunState) : StepResult :=
  if name ∈ features then k st else (st, none)

/-- The admin-details phase (lines 77-85).  In repository scope the map
gets the one entry for `scope_name`; in organization/enterprise scope
the loop iterates `repos = [scope_name]`, so it produces the very same
single-entry map. -/
def admin_details_of (env : Env) (report_scope scope_name : String) : AdminMap :=
  if report_scope = "repository" then
    [(scope_name, env.repoAdmins scope_name)]
  else if report_scope = "organization" ∨ report_scope = "enterprise" then
    [(scope_name, env.repoAdmins scope_name)]
  else []

/-- The `get_repo_admins` calls the admin-details phase makes. -/
def admin_trace_of (report_scope scope_name : String) : List FetchCall :=
  if report_scope = "repository" then [FetchCall.repoAdmins scope_name]
  else if report_scope = "organization" ∨ report_scope = "enterprise" then
    [FetchCall.repoAdmins scope_name]
  else []

/-- What a whole run produced. -/
structure RunResult where
  files : Files
  trace : List FetchCall
  outcome : Outcome
deriving DecidableEq

/-- Package a finished step sequence as a run result. -/
def finishRun (r : StepResult) : RunResult :=
  match r with
  | (st, none) => ⟨st.files, st.trace, Outcome.ok⟩
  | (st, some e) => ⟨st.files, st.trace, Outcome.raised e⟩

/-- The `__main__` orchestrator (lines 75-181): admin-details phase,
then the scope branch running its gated feature blocks in program
order, or `exit("Invalid report scope")` for any other scope. -/
def run_main (env : Env) (report_scope scope_name : String)
    (features : List String) : RunResult :=
  let admin_details := admin_details_of env report_scope scope_name
  let st0 : RunState := ⟨[], admin_trace_of report_scope scope_name⟩
  if report_scope = "enterprise" then
    finishRun (andThenStep (andThenStep
      (gate "secretscanning" features
        (run_try_feature secret_scanning_disabled_strings env.enterpriseSS
          FetchCall.enterpriseSS "enterprise_secret_scanning.csv" scope_name admin_details) st0)
      (gate "codescanning" features (run_enterprise_cs env scope_name admin_details)))
      (gate "dependabot" features
        (run_try_feature dependabot_disabled_strings env.enterpriseDependabot
          FetchCall.enterpriseDependabot "enterprise_dependabot.csv" scope_name admin_details)))
  else if report_scope = "organization" then
    finishRun (andThenStep (andThenStep
      (gate "codescanning" features
        (run_plain_feature env.orgCS FetchCall.orgCS
          "organization_code_scanning.csv" scope_name admin_details) st0)
      (gate "dependabot" features
        (run_try_feature dependabot_disabled_strings env.orgDependabot
          FetchCall.orgDependabot "organization_dependabot.csv" scope_name admin_details)))
      (gate "secretscanning" features
        (run_try_feature secret_scanning_disabled_strings env.orgSS
          FetchCall.orgSS "organization_secret_scanning.csv" scope_name admin_details)))
  else if report_scope = "repository" then
    finishRun (andThenStep (andThenStep
      (gate "codescanning" features
        (run_plain_feature env.repoCS FetchCall.repoCS
          "repository_code_scanning.csv" scope_name admin_details) st0)
      (gate "dependabot" features
        (run_try_feature dependabot_disabled_strings env.repoDependabot
          FetchCall.repoDependabot "repository_dependabot.csv" scope_name admin_details)))
      (gate "secretscanning" features
        (run_try_feature secret_scanning_disabled_strings env.repoSS
          FetchCall.repoSS "repository_secret_scanning.csv" scope_name admin_details)))
  else
    ⟨[], admin_trace_of report_scope scope_name, Outcome.exited "Invalid report scope"⟩

/-- A mocked world where every fetcher succeeds with one record. -/
def envBase : Env :=
  { enterpriseSS := .ok [[("number", "1")]]
    enterpriseVersion := "3.9.0"
    enterpriseServerCS := .ok [[("number", "2")]]
    enterpriseCloudCS := .ok [[("number", "3")]]
    enterpriseDependabot := .ok [[("number", "4")]]
    orgCS := .ok [[("number", "5")]]
    orgDependabot := .ok [[("number", "6")]]
    orgSS := .ok [[("number", "7")]]
    repoCS := .ok [[("number", "8")]]
    repoDependabot := .ok [[("number", "9")]]
    repoSS := .ok [[("number", "10")]]
    repoAdmins := fun _ => ["alice"] }

/-- A world where secret scanning and Dependabot report themselves disabled. -/
def envDisabled : Env :=
  { envBase with
    enterpriseSS := .error "Secret scanning is disabled for this scope"
    enterpriseDependabot := .error "Dependabot alerts are disabled for this scope"
    orgSS := .error "Secret scanning is disabled for this scope"
    orgDependabot := .error "Dependabot alerts are disabled for this scope"
    repoSS := .error "Secret scanning is disabled for this scope"
    repoDependabot := .error "Dependabot alerts are disabled for this scope" }

/-- A fetcher outcome that succeeds with at least one record. -/
def fetch_ok_nonempty (r : FetchResult) : Prop :=
  ∃ first rest, r = Except.ok (first :: rest)

/-- A world where the enterprise-wide code-scanning fetch raises an
exception whose text contains a known disabled phrase. -/
def envCsDisabled : Env :=
  { envBase with enterpriseCloudCS := .error "secret scanning is disabled" }

/-- A world on enterprise-server version 3.6.1. -/
def envServer : Env := { envBase with enterpriseVersion := "3.6.1" }

/-- A world where some fetchers raise a generic error. -/
def envBoom : Env :=
  { envBase with
    enterpriseCloudCS := .error "500 Server Error"
    orgDependabot := .error "500 Server Error"
    repoDependabot := .error "500 Server Error" }

/-- A world where the fetchers return zero alerts. -/
def envNoAlerts : Env :=
  { envBase with repoCS := .ok [], repoSS := .ok [] }

/-- A world where the one fetched alert belongs to a repository other
than the scope name. -/
def envOtherRepo : Env :=
  { envBase with
    orgCS := .ok [[("repository", "other/repo"), ("number", "1")]]
    enterpriseSS := .ok [[("repository", "other/repo"), ("number", "2")]] }

/-- Reading back the file just written. -/
theorem getFile_setFile (files : Files) (name : String) (c : CsvFile) :
    getFile (setFile files name c) name = some c := by
  induction files with
  | nil => simp [setFile, getFile]
  | cons p rest ih =>
    obtain ⟨n, c'⟩ := p
    by_cases h : n = name <;> simp [setFile, getFile, h, ih]

/-- Reading back a different file is unaffected by a write. -/
theorem getFile_setFile_ne (files : Files) (name name' : String) (c : CsvFile)
    (h : name ≠ name') : getFile (setFile files name c) name' = getFile files name' := by
  induction files with
  | nil => simp [setFile, getFile, h]
  | cons p rest ih =>
    obtain ⟨n, c'⟩ := p
    by_cases hn : n = name
    · subst hn; simp [setFile, getFile, h]
    · simp only [setFile, if_neg hn]
      by_cases hn' : n = name' <;> simp [getFile, hn', ih]

/-- Unfolding the writer on a non-empty record list. -/
theorem write_csv_cons (scope_name filename : String) (first : Record)
    (rest : List Record) (admin_details : AdminMap) (files : Files) :
    write_csv_with_admins scope_name filename (first :: rest) admin_details files =
      (setFile (setFile files filename []) filename
        ((first.map Prod.fst ++ ["Admins"]) ::
          (first :: rest).map (csvRow scope_name admin_details)), none) := rfl

/-- Unfolding the writer on the empty record list. -/
theorem write_csv_nil (scope_name filename : String) (admin_details : AdminMap)
    (files : Files) :
    write_csv_with_admins scope_name filename [] admin_details files =
      (setFile files filename [], some "list index out of range") := rfl

/-- A guarded feature block whose fetch succeeds with records writes the
CSV and continues. -/
theorem run_try_feature_ok_cons (strs : List String) (first : Record) (rest : List Record)
    (call : FetchCall) (filename scope_name : String) (admin_details : AdminMap)
    (st : RunState) :
    run_try_feature strs (.ok (first :: rest)) call filename scope_name admin_details st =
      (⟨setFile (setFile st.files filename []) filename
          ((first.map Prod.fst ++ ["Admins"]) ::
            (first :: rest).map (csvRow scope_name admin_details)),
        st.trace ++ [call]⟩, none) := rfl

/-- A guarded feature block whose fetch raises classifies the message. -/
theorem run_try_feature_err (strs : List String) (e : String) (call : FetchCall)
    (filename scope_name : String) (admin_details : AdminMap) (st : RunState) :
    run_try_feature strs (.error e) call filename scope_name admin_details st =
      (if matches_disabled strs e then (⟨st.files, st.trace ++ [call]⟩, none)
       else (⟨st.files, st.trace ++ [call]⟩, some e)) := by
  by_cases h : matches_disabled strs e <;> simp [run_try_feature, h]

/-- An unguarded feature block whose fetch succeeds with records. -/
theorem run_plain_feature_ok_cons (first : Record) (rest : List Record) (call : FetchCall)
    (filename scope_name : String) (admin_details : AdminMap) (st : RunState) :
    run_plain_feature (.ok (first :: rest)) call filename scope_name admin_details st =
      (⟨setFile (setFile st.files filename []) filename
          ((first.map Prod.fst ++ ["Admins"]) ::
            (first :: rest).map (csvRow scope_name admin_details)),
        st.trace ++ [call]⟩, none) := rfl

/-- An unguarded feature block whose fetch raises propagates the error. -/
theorem run_plain_feature_err (e : String) (call : FetchCall)
    (filename scope_name : String) (admin_details : AdminMap) (st : RunState) :
    run_plain_feature (.error e) call filename scope_name admin_details st =
      (⟨st.files, st.trace ++ [call]⟩, some e) := rfl

/-- Claim C3: the line 43-46 validation does satisfy the spec's example —
`secretscanning,bogus` resolves to `[secretscanning]` — but removing from
the list being iterated skips the element after each removed one, so for
the adjacent invalid entries of `bogus,fake` the resolved list keeps the
invalid `fake`, contradicting the claim that only valid names remain. -/
theorem feature_filter_keeps_adjacent_invalid :
    resolve_features (some "secretscanning,bogus") = ["secretscanning"] ∧
    resolve_features (some "bogus,fake") = ["fake"] ∧
    "fake" ∉ FEATURES := by decide

/-- Claim C8: any report scope other than enterprise, organization or
repository makes the run exit with `Invalid report scope` (a nonzero
exit), with no CSV file produced and no fetch performed. -/
theorem invalid_scope_exits (env : Env) (report_scope scope_name : String)
    (features : List String) (h₁ : report_scope ≠ "enterprise")
    (h₂ : report_scope ≠ "organization") (h₃ : report_scope ≠ "repository") :
    run_main env report_scope scope_name features =
      ⟨[], [], Outcome.exited "Invalid report scope"⟩ := by
  simp [run_main, admin_trace_of, h₁, h₂, h₃]

theorem invalid_scope_exits_witness :
    "bogus" ≠ "enterprise" ∧
    run_main envBase "bogus" "x" FEATURES = ⟨[], [], Outcome.exited "Invalid report scope"⟩ :=
  ⟨by decide, invalid_scope_exits envBase "bogus" "x" FEATURES (by decide) (by decide) (by decide)⟩

/-- Claim C2: on a non-empty record list the writer raises nothing and
the file holds a header row — the first record's keys plus `Admins` —
followed by exactly one row per record. -/
theorem write_csv_header_and_row_count (scope_name filename : String) (first : Record)
    (rest : List Record) (admin_details : AdminMap) (files : Files) :
    (write_csv_with_admins scope_name filename (first :: rest) admin_details files).2 = none ∧
    ∃ content,
      getFile (write_csv_with_admins scope_name filename (first :: rest) admin_details files).1
          filename = some content ∧
      content.head? = some (first.map Prod.fst ++ ["Admins"]) ∧
      content.length = (first :: rest).length + 1 := by
  rw [write_csv_cons]
  exact ⟨rfl,
    (first.map Prod.fst ++ ["Admins"]) :: (first :: rest).map (csvRow scope_name admin_details),
    getFile_setFile _ _ _, rfl, by simp⟩

/-- Claim C5: a record with no `repository` key gets the admins looked
up under the scope name: in general the writer's Admins cell for such a
record is the comma-joined `admin_details` entry for `scope_name`, and
in a repository-scope run it is exactly the admins fetched for
`SCOPE_NAME`. -/
theorem admins_fallback_scope_name :
    (∀ (scope_name filename : String) (data : List Record) (admin_details : AdminMap)
        (files : Files) (i : Nat) (rec : Record),
        data[i]? = some rec → rec.lookup "repository" = none →
        ((getFile (write_csv_with_admins scope_name filename data admin_details files).1
            filename).bind (fun content => content[i + 1]?)).bind List.getLast? =
          some (joinComma ((admin_details.lookup scope_name).getD []))) ∧
    (∀ (env : Env) (scope_name : String) (rec : Record),
        env.repoSS = .ok [rec] → rec.lookup "repository" = none →
        ((getFile (run_main env "repository" scope_name ["secretscanning"]).files
            "repository_secret_scanning.csv").bind (fun content => content[1]?)).bind
          List.getLast? = some (joinComma (env.repoAdmins scope_name))) := by
  constructor
  · intro scope_name filename data admin_details files i rec hget hrepo
    match data, hget with
    | first :: rest, hget =>
      rw [write_csv_cons, getFile_setFile]
      have h1 : (((first.map Prod.fst ++ ["Admins"]) ::
          (first :: rest).map (csvRow scope_name admin_details))[i + 1]?) =
          some (csvRow scope_name admin_details rec) := by
        rw [List.getElem?_cons_succ, List.getElem?_map, hget]
        rfl
      rw [Option.some_bind, h1, Option.some_bind]
      simp [csvRow, hrepo, List.getLast?_concat]
  · intro env scope_name rec hss hrepo
    simp [run_main, admin_details_of, admin_trace_of, gate, andThenStep, finishRun,
      run_try_feature, write_csv_cons, hss, getFile_setFile, csvRow, hrepo,
      List.lookup, List.getLast?_concat]

theorem admins_fallback_scope_name_witness :
    [[("number", "7")]][0]? = some [("number", "7")] ∧
    ((getFile (run_main envBase "repository" "o/r" ["secretscanning"]).files
        "repository_secret_scanning.csv").bind (fun content => content[1]?)).bind
      List.getLast? = some (joinComma (envBase.repoAdmins "o/r")) :=
  ⟨rfl, admins_fallback_scope_name.2 envBase "o/r" [("number", "10")] rfl rfl⟩

/-- Claim C9: on an empty record list the writer truncates the file and
then raises `IndexError`, so a feature that is enabled but has zero
alerts aborts the run, leaving an empty — not header-only — CSV behind. -/
theorem empty_alert_list_raises (scope_name filename : String) (admin_details : AdminMap)
    (files : Files) (env : Env) (hcs : env.repoCS = .ok []) (hss : env.repoSS = .ok []) :
    write_csv_with_admins scope_name filename [] admin_details files =
      (setFile files filename [], some "list index out of range") ∧
    (run_main env "repository" scope_name ["codescanning"]).outcome =
      Outcome.raised "list index out of range" ∧
    getFile (run_main env "repository" scope_name ["codescanning"]).files
        "repository_code_scanning.csv" = some [] ∧
    (run_main env "repository" scope_name ["secretscanning"]).outcome =
      Outcome.raised "list index out of range" ∧
    getFile (run_main env "repository" scope_name ["secretscanning"]).files
        "repository_secret_scanning.csv" = some [] := by
  have hm : matches_disabled secret_scanning_disabled_strings "list index out of range" = false :=
    by decide
  refine ⟨rfl, ?_, ?_, ?_, ?_⟩ <;>
    simp [run_main, admin_details_of, admin_trace_of, gate, andThenStep, finishRun,
      run_plain_feature, run_try_feature, write_csv_nil, hcs, hss, hm, getFile_setFile]

theorem empty_alert_list_raises_witness :
    envNoAlerts.repoCS = .ok [] ∧
    (run_main envNoAlerts "repository" "o/r" ["codescanning"]).outcome =
      Outcome.raised "list index out of range" :=
  ⟨rfl, ((empty_alert_list_raises "o/r" "f.csv" [] [] envNoAlerts rfl rfl).2).1⟩

/-- Claim C4: in enterprise scope with code scanning requested, server
version `3.6.1` takes the per-repository looped path (repo report plus
`list_enterprise_server_cs_alerts`) while `3.9.0` takes the
enterprise-wide `list_enterprise_cloud_cs_alerts` path; both write
`enterprise_code_scanning.csv` and finish normally. -/
theorem enterprise_cs_version_dispatch (env₁ env₂ : Env) (scope_name : String)
    (b : Record) (bs : List Record) (c : Record) (cs : List Record)
    (hv₁ : env₁.enterpriseVersion = "3.6.1")
    (hs : env₁.enterpriseServerCS = .ok (b :: bs))
    (hv₂ : env₂.enterpriseVersion = "3.9.0")
    (hc : env₂.enterpriseCloudCS = .ok (c :: cs)) :
    ((run_main env₁ "enterprise" scope_name ["codescanning"]).trace =
        [FetchCall.repoAdmins scope_name, FetchCall.enterpriseVersionProbe,
          FetchCall.repoReport, FetchCall.enterpriseServerCS] ∧
      (getFile (run_main env₁ "enterprise" scope_name ["codescanning"]).files
          "enterprise_code_scanning.csv").isSome = true ∧
      (run_main env₁ "enterprise" scope_name ["codescanning"]).outcome = Outcome.ok) ∧
    ((run_main env₂ "enterprise" scope_name ["codescanning"]).trace =
        [FetchCall.repoAdmins scope_name, FetchCall.enterpriseVersionProbe,
          FetchCall.enterpriseCloudCS] ∧
      (getFile (run_main env₂ "enterprise" scope_name ["codescanning"]).files
          "enterprise_code_scanning.csv").isSome = true ∧
      (run_main env₂ "enterprise" scope_name ["codescanning"]).outcome = Outcome.ok) := by
  have hv36 : (strStarts "3.6.1" "3.5" || strStarts "3.6.1" "3.6") = true := by decide
  have hv39 : (strStarts "3.9.0" "3.5" || strStarts "3.9.0" "3.6") = false := by decide
  constructor <;>
    refine ⟨?_, ?_, ?_⟩ <;>
      simp [run_main, admin_details_of, admin_trace_of, gate, andThenStep, finishRun,
        run_enterprise_cs, run_plain_feature, write_csv_cons, hv₁, hs, hv₂, hc, hv36, hv39,
        getFile_setFile]

theorem enterprise_cs_version_dispatch_witness :
    envServer.enterpriseVersion = "3.6.1" ∧
    (run_main envServer "enterprise" "ent" ["codescanning"]).trace =
      [FetchCall.repoAdmins "ent", FetchCall.enterpriseVersionProbe, FetchCall.repoReport,
        FetchCall.enterpriseServerCS] :=
  ⟨rfl, ((enterprise_cs_version_dispatch envServer envBase "ent" [("number", "2")] []
      [("number", "3")] [] rfl rfl rfl rfl).1).1⟩

/-- Claim C10: in organization and enterprise scope the admin map holds
the single key `scope_name` (the loop iterates `repos = [scope_name]`),
so any written row whose `repository` field differs from the scope name
gets an empty Admins cell. -/
theorem admin_map_single_scope_key (env : Env) (scope_name : String) :
    admin_details_of env "organization" scope_name =
      [(scope_name, env.repoAdmins scope_name)] ∧
    admin_details_of env "enterprise" scope_name =
      [(scope_name, env.repoAdmins scope_name)] ∧
    (∀ (data : List Record) (i : Nat) (rec : Record) (repo : String),
        env.orgCS = .ok data → data[i]? = some rec →
        rec.lookup "repository" = some repo → repo ≠ scope_name →
        ((getFile (run_main env "organization" scope_name ["codescanning"]).files
            "organization_code_scanning.csv").bind (fun content => content[i + 1]?)).bind
          List.getLast? = some "") ∧
    (∀ (data : List Record) (i : Nat) (rec : Record) (repo : String),
        env.enterpriseSS = .ok data → data[i]? = some rec →
        rec.lookup "repository" = some repo → repo ≠ scope_name →
        ((getFile (run_main env "enterprise" scope_name ["secretscanning"]).files
            "enterprise_secret_scanning.csv").bind (fun content => content[i + 1]?)).bind
          List.getLast? = some "") := by
  refine ⟨by simp [admin_details_of], by simp [admin_details_of], ?_, ?_⟩
  · intro data i rec repo hfetch hget hrepo hne
    match data, hget with
    | first :: rest, hget =>
      have hbeq : (repo == scope_name) = false := beq_eq_false_iff_ne.mpr hne
      have hrun : getFile (run_main env "organization" scope_name ["codescanning"]).files
          "organization_code_scanning.csv" =
          some ((first.map Prod.fst ++ ["Admins"]) ::
            (first :: rest).map
              (csvRow scope_name (admin_details_of env "organization" scope_name))) := by
        simp [run_main, gate, andThenStep, finishRun, run_plain_feature, write_csv_cons,
          hfetch, getFile_setFile, admin_trace_of]
      have h1 : (((first.map Prod.fst ++ ["Admins"]) ::
          (first :: rest).map
            (csvRow scope_name (admin_details_of env "organization" scope_name)))[i + 1]?) =
          some (csvRow scope_name (admin_details_of env "organization" scope_name) rec) := by
        rw [List.getElem?_cons_succ, List.getElem?_map, hget]
        rfl
      rw [hrun, Option.some_bind, h1, Option.some_bind]
      simp [csvRow, hrepo, admin_details_of, List.lookup, hbeq, joinComma,
        List.getLast?_concat]
  · intro data i rec repo hfetch hget hrepo hne
    match data, hget with
    | first :: rest, hget =>
      have hbeq : (repo == scope_name) = false := beq_eq_false_iff_ne.mpr hne
      have hrun : getFile (run_main env "enterprise" scope_name ["secretscanning"]).files
          "enterprise_secret_scanning.csv" =
          some ((first.map Prod.fst ++ ["Admins"]) ::
            (first :: rest).map
              (csvRow scope_name (admin_details_of env "enterprise" scope_name))) := by
        simp [run_main, gate, andThenStep, finishRun, run_try_feature, write_csv_cons,
          hfetch, getFile_setFile, admin_trace_of]
      have h1 : (((first.map Prod.fst ++ ["Admins"]) ::
          (first :: rest).map
            (csvRow scope_name (admin_details_of env "enterprise" scope_name)))[i + 1]?) =
          some (csvRow scope_name (admin_details_of env "enterprise" scope_name) rec) := by
        rw [List.getElem?_cons_succ, List.getElem?_map, hget]
        rfl
      rw [hrun, Option.some_bind, h1, Option.some_bind]
      simp [csvRow, hrepo, admin_details_of, List.lookup, hbeq, joinComma,
        List.getLast?_concat]

theorem admin_map_single_scope_key_witness :
    "other/repo" ≠ "myorg" ∧
    ((getFile (run_main envOtherRepo "organization" "myorg" ["codescanning"]).files
        "organization_code_scanning.csv").bind (fun content => content[0 + 1]?)).bind
      List.getLast? = some "" :=
  ⟨by decide,
    (admin_map_single_scope_key envOtherRepo "myorg").2.2.1
      [[("repository", "other/repo"), ("number", "1")]] 0
      [("repository", "other/repo"), ("number", "1")] "other/repo" rfl rfl rfl (by decide)⟩

/-- Claim C1 (counterexample): in enterprise scope the code-scanning
fetch has no `try` around it, so even an exception whose lowercased text
contains a known disabled phrase terminates the run — the Dependabot
feature requested next is never reached — instead of being skipped. -/
theorem cs_disabled_phrase_not_caught :
    matches_disabled secret_scanning_disabled_strings "secret scanning is disabled" = true ∧
    (run_main envCsDisabled "enterprise" "ent" ["codescanning", "dependabot"]).outcome =
      Outcome.raised "secret scanning is disabled" ∧
    getFile (run_main envCsDisabled "enterprise" "ent" ["codescanning", "dependabot"]).files
        "enterprise_code_scanning.csv" = none ∧
    FetchCall.enterpriseDependabot ∉
      (run_main envCsDisabled "enterprise" "ent" ["codescanning", "dependabot"]).trace := by
  decide

/-- Claim C1 (amended): only the secret-scanning and Dependabot fetches
sit inside `try` blocks; when such a fetch raises an exception matching
that feature's own disabled-phrase list, no CSV is produced for it and
the run continues with the next requested feature, in every scope. -/
theorem disabled_phrase_skips_ss_dependabot (env : Env) (scope_name m₁ m₂ : String)
    (h₁ : matches_disabled secret_scanning_disabled_strings m₁ = true)
    (h₂ : matches_disabled dependabot_disabled_strings m₂ = true)
    (hess : env.enterpriseSS = .error m₁) (hedep : env.enterpriseDependabot = .error m₂)
    (hoss : env.orgSS = .error m₁) (hodep : env.orgDependabot = .error m₂)
    (hrss : env.repoSS = .error m₁) (hrdep : env.repoDependabot = .error m₂) :
    run_main env "enterprise" scope_name ["secretscanning", "dependabot"] =
      ⟨[], [FetchCall.repoAdmins scope_name, FetchCall.enterpriseSS,
        FetchCall.enterpriseDependabot], Outcome.ok⟩ ∧
    run_main env "organization" scope_name ["dependabot", "secretscanning"] =
      ⟨[], [FetchCall.repoAdmins scope_name, FetchCall.orgDependabot, FetchCall.orgSS],
        Outcome.ok⟩ ∧
    run_main env "repository" scope_name ["dependabot", "secretscanning"] =
      ⟨[], [FetchCall.repoAdmins scope_name, FetchCall.repoDependabot, FetchCall.repoSS],
        Outcome.ok⟩ := by
  refine ⟨?_, ?_, ?_⟩ <;>
    simp [run_main, admin_details_of, admin_trace_of, gate, andThenStep, finishRun,
      run_try_feature, hess, hedep, hoss, hodep, hrss, hrdep, h₁, h₂]

theorem disabled_phrase_skips_ss_dependabot_witness :
    matches_disabled secret_scanning_disabled_strings
        "Secret scanning is disabled for this scope" = true ∧
    run_main envDisabled "organization" "o" ["dependabot", "secretscanning"] =
      ⟨[], [FetchCall.repoAdmins "o", FetchCall.orgDependabot, FetchCall.orgSS],
        Outcome.ok⟩ :=
  ⟨by decide,
    (disabled_phrase_skips_ss_dependabot envDisabled "o"
      "Secret scanning is disabled for this scope"
      "Dependabot alerts are disabled for this scope" (by decide) (by decide)
      rfl rfl rfl rfl rfl rfl).2.1⟩

/-- Claim C6: an exception whose text matches no disabled phrase is
re-raised: the run ends with that exception, the failing feature's CSV
and every later feature's CSV of that scope are never produced, while a
CSV already written earlier in the same run stays exactly as the
earlier feature wrote it. -/
theorem generic_error_terminates_run (env : Env) (scope_name msg : String)
    (a : Record) (as : List Record) (b : Record) (bs : List Record)
    (c : Record) (cs : List Record)
    (hnss : matches_disabled secret_scanning_disabled_strings msg = false)
    (hndep : matches_disabled dependabot_disabled_strings msg = false)
    (hess : env.enterpriseSS = .ok (a :: as))
    (hver : (strStarts env.enterpriseVersion "3.5" ||
      strStarts env.enterpriseVersion "3.6") = false)
    (hecs : env.enterpriseCloudCS = .error msg)
    (hocs : env.orgCS = .ok (b :: bs)) (hodep : env.orgDependabot = .error msg)
    (hrcs : env.repoCS = .ok (c :: cs)) (hrdep : env.repoDependabot = .error msg) :
    ((run_main env "enterprise" scope_name FEATURES).outcome = Outcome.raised msg ∧
      getFile (run_main env "enterprise" scope_name FEATURES).files
          "enterprise_secret_scanning.csv" =
        getFile (run_main env "enterprise" scope_name ["secretscanning"]).files
          "enterprise_secret_scanning.csv" ∧
      (getFile (run_main env "enterprise" scope_name FEATURES).files
          "enterprise_secret_scanning.csv").isSome = true ∧
      getFile (run_main env "enterprise" scope_name FEATURES).files
          "enterprise_code_scanning.csv" = none ∧
      getFile (run_main env "enterprise" scope_name FEATURES).files
          "enterprise_dependabot.csv" = none ∧
      FetchCall.enterpriseDependabot ∉ (run_main env "enterprise" scope_name FEATURES).trace) ∧
    ((run_main env "organization" scope_name FEATURES).outcome = Outcome.raised msg ∧
      getFile (run_main env "organization" scope_name FEATURES).files
          "organization_code_scanning.csv" =
        getFile (run_main env "organization" scope_name ["codescanning"]).files
          "organization_code_scanning.csv" ∧
      (getFile (run_main env "organization" scope_name FEATURES).files
          "organization_code_scanning.csv").isSome = true ∧
      getFile (run_main env "organization" scope_name FEATURES).files
          "organization_dependabot.csv" = none ∧
      getFile (run_main env "organization" scope_name FEATURES).files
          "organization_secret_scanning.csv" = none ∧
      FetchCall.orgSS ∉ (run_main env "organization" scope_name FEATURES).trace) ∧
    ((run_main env "repository" scope_name FEATURES).outcome = Outcome.raised msg ∧
      getFile (run_main env "repository" scope_name FEATURES).files
          "repository_code_scanning.csv" =
        getFile (run_main env "repository" scope_name ["codescanning"]).files
          "repository_code_scanning.csv" ∧
      (getFile (run_main env "repository" scope_name FEATURES).files
          "repository_code_scanning.csv").isSome = true ∧
      getFile (run_main env "repository" scope_name FEATURES).files
          "repository_dependabot.csv" = none ∧
      getFile (run_main env "repository" scope_name FEATURES).files
          "repository_secret_scanning.csv" = none ∧
      FetchCall.repoSS ∉ (run_main env "repository" scope_name FEATURES).trace) := by
  refine ⟨⟨?_, ?_, ?_, ?_, ?_, ?_⟩, ⟨?_, ?_, ?_, ?_, ?_, ?_⟩, ⟨?_, ?_, ?_, ?_, ?_, ?_⟩⟩ <;>
    simp [run_main, admin_details_of, admin_trace_of, gate, andThenStep, finishRun,
      run_try_feature, run_plain_feature, run_enterprise_cs, write_csv_cons, FEATURES,
      setFile, getFile, hnss, hndep, hess, hver, hecs, hocs, hodep, hrcs, hrdep]

theorem generic_error_terminates_run_witness :
    matches_disabled secret_scanning_disabled_strings "500 Server Error" = false ∧
    (run_main envBoom "organization" "o" FEATURES).outcome =
      Outcome.raised "500 Server Error" :=
  ⟨by decide,
    ((generic_error_terminates_run envBoom "o" "500 Server Error"
      [("number", "1")] [] [("number", "5")] [] [("number", "8")] []
      (by decide) (by decide) rfl (by decide) rfl rfl rfl rfl rfl).2.1).1⟩

/-- Claim C7: whatever subset of features is requested, the fetches of a
scope's branch happen in the branch's fixed program order — secret
scanning, then code scanning, then Dependabot in enterprise scope; code
scanning, then Dependabot, then secret scanning in organization and
repository scope — with absent features skipped and the rest not
reordered. -/
theorem feature_order_fixed (env : Env) (scope_name : String) (features : List String)
    (h₁ : fetch_ok_nonempty env.enterpriseSS)
    (h₂ : fetch_ok_nonempty env.enterpriseServerCS)
    (h₃ : fetch_ok_nonempty env.enterpriseCloudCS)
    (h₄ : fetch_ok_nonempty env.enterpriseDependabot)
    (h₅ : fetch_ok_nonempty env.orgCS)
    (h₆ : fetch_ok_nonempty env.orgDependabot)
    (h₇ : fetch_ok_nonempty env.orgSS)
    (h₈ : fetch_ok_nonempty env.repoCS)
    (h₉ : fetch_ok_nonempty env.repoDependabot)
    (h₁₀ : fetch_ok_nonempty env.repoSS) :
    (run_main env "enterprise" scope_name features).trace =
      FetchCall.repoAdmins scope_name ::
        ((if "secretscanning" ∈ features then [FetchCall.enterpriseSS] else []) ++
          (if "codescanning" ∈ features then
            FetchCall.enterpriseVersionProbe ::
              (if strStarts env.enterpriseVersion "3.5" ||
                  strStarts env.enterpriseVersion "3.6" then
                [FetchCall.repoReport, FetchCall.enterpriseServerCS]
              else [FetchCall.enterpriseCloudCS])
          else []) ++
          (if "dependabot" ∈ features then [FetchCall.enterpriseDependabot] else [])) ∧
    (run_main env "organization" scope_name features).trace =
      FetchCall.repoAdmins scope_name ::
        ((if "codescanning" ∈ features then [FetchCall.orgCS] else []) ++
          (if "dependabot" ∈ features then [FetchCall.orgDependabot] else []) ++
          (if "secretscanning" ∈ features then [FetchCall.orgSS] else [])) ∧
    (run_main env "repository" scope_name features).trace =
      FetchCall.repoAdmins scope_name ::
        ((if "codescanning" ∈ features then [FetchCall.repoCS] else []) ++
          (if "dependabot" ∈ features then [FetchCall.repoDependabot] else []) ++
          (if "secretscanning" ∈ features then [FetchCall.repoSS] else [])) := by
  obtain ⟨a₁, l₁, e₁⟩ := h₁
  obtain ⟨a₂, l₂, e₂⟩ := h₂
  obtain ⟨a₃, l₃, e₃⟩ := h₃
  obtain ⟨a₄, l₄, e₄⟩ := h₄
  obtain ⟨a₅, l₅, e₅⟩ := h₅
  obtain ⟨a₆, l₆, e₆⟩ := h₆
  obtain ⟨a₇, l₇, e₇⟩ := h₇
  obtain ⟨a₈, l₈, e₈⟩ := h₈
  obtain ⟨a₉, l₉, e₉⟩ := h₉
  obtain ⟨a₁₀, l₁₀, e₁₀⟩ := h₁₀
  refine ⟨?_, ?_, ?_⟩
  · by_cases hss : "secretscanning" ∈ features <;>
    by_cases hcs : "codescanning" ∈ features <;>
    by_cases hdep : "dependabot" ∈ features <;>
    by_cases hv : (strStarts env.enterpriseVersion "3.5" ||
        strStarts env.enterpriseVersion "3.6") = true <;>
    simp [run_main, admin_details_of, admin_trace_of, gate, andThenStep, finishRun,
      run_try_feature, run_plain_feature, run_enterprise_cs, write_csv_cons,
      e₁, e₂, e₃, e₄, hss, hcs, hdep, hv]
  · by_cases hss : "secretscanning" ∈ features <;>
    by_cases hcs : "codescanning" ∈ features <;>
    by_cases hdep : "dependabot" ∈ features <;>
    simp [run_main, admin_details_of, admin_trace_of, gate, andThenStep, finishRun,
      run_try_feature, run_plain_feature, write_csv_cons, e₅, e₆, e₇, hss, hcs, hdep]
  · by_cases hss : "secretscanning" ∈ features <;>
    by_cases hcs : "codescanning" ∈ features <;>
    by_cases hdep : "dependabot" ∈ features <;>
    simp [run_main, admin_details_of, admin_trace_of, gate, andThenStep, finishRun,
      run_try_feature, run_plain_feature, write_csv_cons, e₈, e₉, e₁₀, hss, hcs, hdep]

theorem feature_order_fixed_witness :
    fetch_ok_nonempty envBase.orgCS ∧
    (run_main envBase "organization" "o" FEATURES).trace =
      FetchCall.repoAdmins "o" ::
        ((if "codescanning" ∈ FEATURES then [FetchCall.orgCS] else []) ++
          (if "dependabot" ∈ FEATURES then [FetchCall.orgDependabot] else []) ++
          (if "secretscanning" ∈ FEATURES then [FetchCall.orgSS] else [])) :=
  ⟨⟨[("number", "5")], [], rfl⟩,
    (feature_order_fixed envBase "o" FEATURES ⟨_, _, rfl⟩ ⟨_, _, rfl⟩ ⟨_, _, rfl⟩
      ⟨_, _, rfl⟩ ⟨_, _, rfl⟩ ⟨_, _, rfl⟩ ⟨_, _, rfl⟩ ⟨_, _, rfl⟩ ⟨_, _, rfl⟩
      ⟨_, _, rfl⟩).2.1⟩

end GhasToCsv
